import Mathlib

/-!
Shallow embedding of the NSR directory scraper (JavaScript sources under
`src/`) and verification of its specification claims.

Conventions of the embedding:
* JS strings are Lean `String`s; JS `null`/`undefined` string values are
  `Option String` with `none`.
* JS numbers that only ever hold integers (page indices, parseInt results)
  are `Int` (or `Nat` for counts).
* `parseInt` is modelled on decimal inputs (optional sign, leading
  whitespace, leading digits); the hex/octal prefix forms of JS `parseInt`
  are not modelled, no input in this development uses them.
* URLs are modelled structurally (`Url`): a base (scheme+host+path) and an
  ordered query-parameter list.  Anchor `href`s are modelled as
  already-resolved absolute URLs, so `new URL(href, base)` is the identity
  and the `includes('javascript:')` / `includes('#')` anchor filters are
  vacuous (such hrefs are not representable).  Since those filters only
  discard further candidates, every safety theorem proved over this model
  also bounds the JS code.
-/

namespace NSR

/-! ## JS string primitives -/

/-- JS whitespace (`\s`) restricted to the characters that occur in this
development: space, tab, newline, carriage return. -/
def jsWsCh (c : Char) : Bool :=
  c = ' ' || c = '\t' || c = '\n' || c = '\r'

/-- JS word character (`\w` = `[A-Za-z0-9_]`). -/
def isWordChar (c : Char) : Bool :=
  c.isAlphanum || c = '_'

/-- `String.prototype.trim` over a char list. -/
def trimL (cs : List Char) : List Char :=
  ((cs.dropWhile jsWsCh).reverse.dropWhile jsWsCh).reverse

/-- `String.prototype.trim`. -/
def trimStr (s : String) : String :=
  String.mk (trimL s.toList)

/-- `String.prototype.toLowerCase` (ASCII). -/
def lowerStr (s : String) : String :=
  String.mk (s.toList.map Char.toLower)

/-- Collapse runs of whitespace to a single space (`replace(/\s+/g, ' ')`). -/
def squeezeWs : List Char → List Char
  | [] => []
  | [c] => [if jsWsCh c then ' ' else c]
  | c :: d :: cs =>
    if jsWsCh c && jsWsCh d then squeezeWs (d :: cs)
    else (if jsWsCh c then ' ' else c) :: squeezeWs (d :: cs)

/-- Substring test over char lists (`String.prototype.includes`). -/
def containsL : List Char → List Char → Bool
  | hay, needle =>
    if needle.isPrefixOf hay then true
    else
      match hay with
      | [] => false
      | _ :: hs => containsL hs needle

/-- `hay.includes(needle)`. -/
def strContainsSub (hay needle : String) : Bool :=
  containsL hay.toList needle.toList

/-- Digits of a decimal literal, as a `Nat` (big-endian fold). -/
def digitsVal (ds : List Char) : Nat :=
  ds.foldl (fun a c => 10 * a + (c.toNat - 48)) 0

/-- Leading-digit parse used by `parseIntOpt`. -/
def parseDigits (cs : List Char) : Option Nat :=
  let ds := cs.takeWhile Char.isDigit
  if ds = [] then none else some (digitsVal ds)

/-- JS `parseInt` on decimal input: skip leading whitespace, optional sign,
read leading digits; `none` models `NaN`. -/
def parseIntOpt (s : String) : Option Int :=
  match s.toList.dropWhile jsWsCh with
  | '-' :: rest => (parseDigits rest).map (fun n => -(n : Int))
  | '+' :: rest => (parseDigits rest).map (fun n => (n : Int))
  | cs => (parseDigits cs).map (fun n => (n : Int))

/-- Decimal digits of a `Nat`, least significant first (fueled so the
kernel can evaluate it). -/
def natDigitsRevF : Nat → Nat → List Nat
  | 0, _ => []
  | f + 1, n => if n < 10 then [n] else n % 10 :: natDigitsRevF f (n / 10)

/-- Map a digit value to its character. -/
def digitChar : Nat → Char
  | 0 => '0' | 1 => '1' | 2 => '2' | 3 => '3' | 4 => '4'
  | 5 => '5' | 6 => '6' | 7 => '7' | 8 => '8' | _ => '9'

/-- JS `String(n)` for a nonnegative integer. -/
def natToStr (n : Nat) : String :=
  String.mk (((natDigitsRevF (n + 1) n).reverse).map digitChar)

/-- JS `String(i)` / `Number.prototype.toString` for integers. -/
def intToStr (i : Int) : String :=
  if i < 0 then "-" ++ natToStr i.natAbs else natToStr i.toNat

/-! ## `src/src/utils.js` : field normalizers -/

/-- `cleanText` (utils.js): collapse whitespace to single spaces, trim. -/
def cleanText (s : String) : String :=
  String.mk (trimL (squeezeWs s.toList))

/-- `isValidNsrNumber` (utils.js): falsy input is invalid; otherwise strip
non-digits and require at least 6 digits. -/
def isValidNsrNumber (nsrNo : Option String) : Bool :=
  match nsrNo with
  | none => false
  | some s =>
    if s = "" then false
    else decide (6 ≤ (s.toList.filter Char.isDigit).length)

/-- `buildProfileUrl` (utils.js). -/
def buildProfileUrl (nsrNo : String) : String :=
  "https://nsr.org.my/nsr/ViewSpecialistProfile.jsp?nsrNo=" ++ nsrNo

/-- The alternatives of `PATTERNS.state`
(`/\b(johor|kedah|...|putrajaya)\b/i`), in the order they appear in the
regex; multi-word alternatives carry `\s+` between words. -/
def stateAlts : List (List String) :=
  [["johor"], ["kedah"], ["kelantan"], ["melaka"], ["negeri", "sembilan"],
   ["pahang"], ["perak"], ["perlis"], ["pulau", "pinang"], ["penang"],
   ["sabah"], ["sarawak"], ["selangor"], ["terengganu"],
   ["kuala", "lumpur"], ["labuan"], ["putrajaya"]]

/-- Case-insensitive literal word match; consumes `w` (already lowercase)
from the front of `cs`, returns the rest. -/
def matchWordAt : List Char → List Char → Option (List Char)
  | [], cs => some cs
  | _ :: _, [] => none
  | a :: ws, c :: cs => if c.toLower = a then matchWordAt ws cs else none

/-- Match a sequence of words separated by `\s+` (at least one whitespace
character between consecutive words). Returns the remaining input. -/
def matchWordsAt : List (List Char) → List Char → Option (List Char)
  | [], cs => some cs
  | w :: ws, cs =>
    match matchWordAt w cs with
    | none => none
    | some rest =>
      match ws with
      | [] => some rest
      | _ :: _ =>
        let rest2 := rest.dropWhile jsWsCh
        if rest2.length < rest.length then matchWordsAt ws rest2 else none

/-- Try the regex alternatives, in order, at the current position; return
the length of the match. At most one alternative can match at a given
position, so regex alternation order is respected. -/
def matchAltsAt (cs : List Char) : List (List String) → Option Nat
  | [] => none
  | alt :: alts =>
    match matchWordsAt (alt.map (fun w => w.toList)) cs with
    | some rest => some (cs.length - rest.length)
    | none => matchAltsAt cs alts

/-- Scan for the leftmost `\b(alternative)\b` match; `prev` is the
character before the current position (for the left word boundary). -/
def stateScan : Option Char → List Char → Option (List Char)
  | _, [] => none
  | prev, c :: rest =>
    let lb := match prev with
      | none => true
      | some p => !(isWordChar p)
    if lb then
      match matchAltsAt (c :: rest) stateAlts with
      | some len =>
        let after := (c :: rest).drop len
        let rb := match after with
          | [] => true
          | a :: _ => !(isWordChar a)
        if rb then some ((c :: rest).take len) else stateScan (some c) rest
      | none => stateScan (some c) rest
    else stateScan (some c) rest

/-- First match of `PATTERNS.state` in `s` (`s.match(PATTERNS.state)`,
returning the captured group / matched text), or `none`. -/
def stateMatchStr (s : String) : Option String :=
  (stateScan none s.toList).map String.mk

/-- `PATTERNS.state.test(s)`. -/
def stateTest (s : String) : Bool :=
  (stateMatchStr s).isSome

/-- A row of `MALAYSIAN_STATES` (constants.js). -/
structure StateInfo where
  name : String
  displayName : String
  category : String
deriving DecidableEq, Repr

/-- `MALAYSIAN_STATES` (constants.js). -/
def MALAYSIAN_STATES (id : Nat) : Option StateInfo :=
  match id with
  | 1 => some ⟨"johor", "Johor", "regular"⟩
  | 2 => some ⟨"kedah", "Kedah", "regular"⟩
  | 3 => some ⟨"kelantan", "Kelantan", "regular"⟩
  | 4 => some ⟨"melaka", "Melaka", "regular"⟩
  | 5 => some ⟨"negeri sembilan", "Negeri Sembilan", "regular"⟩
  | 6 => some ⟨"pahang", "Pahang", "regular"⟩
  | 7 => some ⟨"perak", "Perak", "regular"⟩
  | 8 => some ⟨"perlis", "Perlis", "regular"⟩
  | 9 => some ⟨"pulau pinang", "Pulau Pinang", "regular"⟩
  | 10 => some ⟨"sabah", "Sabah", "regular"⟩
  | 11 => some ⟨"sarawak", "Sarawak", "regular"⟩
  | 12 => some ⟨"selangor", "Selangor", "regular"⟩
  | 13 => some ⟨"terengganu", "Terengganu", "regular"⟩
  | 14 => some ⟨"kuala lumpur", "Kuala Lumpur", "federal_territory"⟩
  | 15 => some ⟨"labuan", "Labuan", "federal_territory"⟩
  | 16 => some ⟨"putrajaya", "Putrajaya", "federal_territory"⟩
  | 20 => some ⟨"foreign", "Foreign, specify", "special"⟩
  | 9999 => some ⟨"missing", "Missing", "special"⟩
  | _ => none

/-- `STATE_NAME_TO_ID` (constants.js): state names plus aliases. -/
def STATE_NAME_TO_ID (s : String) : Option Nat :=
  List.lookup s
    [("johor", 1), ("kedah", 2), ("kelantan", 3), ("melaka", 4),
     ("negeri sembilan", 5), ("pahang", 6), ("perak", 7), ("perlis", 8),
     ("pulau pinang", 9), ("penang", 9), ("sabah", 10), ("sarawak", 11),
     ("selangor", 12), ("terengganu", 13), ("kuala lumpur", 14),
     ("labuan", 15), ("putrajaya", 16), ("foreign", 20), ("missing", 9999)]

/-- Result of `extractStateFromAddress`. -/
structure StateRes where
  stateId : Nat
  stateName : String
  stateCategory : String
deriving DecidableEq, Repr

/-- The `{stateId: 9999, stateName: 'Missing', stateCategory: 'special'}`
fallback of `extractStateFromAddress`. -/
def missingState : StateRes := ⟨9999, "Missing", "special"⟩

/-- `extractStateFromAddress` (utils.js). -/
def extractStateFromAddress (address : String) : StateRes :=
  if address = "" then missingState
  else
    match stateMatchStr address with
    | some m =>
      let stateName := lowerStr (trimStr m)
      match STATE_NAME_TO_ID stateName with
      | some id =>
        match MALAYSIAN_STATES id with
        | some info => ⟨id, info.displayName, info.category⟩
        | none => missingState
      | none => missingState
    | none => missingState

/-- Remove every maximal digit run of length at least 5
(`replace(/\d{5,}/g, '')`); fueled for kernel evaluation. -/
def remDigitRunsF : Nat → List Char → List Char
  | 0, cs => cs
  | f + 1, [] => (fun _ => []) f
  | f + 1, c :: cs =>
    if c.isDigit then
      let run := (c :: cs).takeWhile Char.isDigit
      let rest := (c :: cs).dropWhile Char.isDigit
      if 5 ≤ run.length then remDigitRunsF f rest
      else run ++ remDigitRunsF f rest
    else c :: remDigitRunsF f cs

/-- Split on comma/newline characters. `split(/[,\n]+/)` collapses runs of
separators; this simple splitter instead produces empty segments for runs,
which the subsequent `.map(trim).filter(Boolean)` of the source removes,
so the composite below is exactly the source's composite. -/
def splitSepAux : List Char → List Char → List (List Char)
  | [], cur => [cur.reverse]
  | c :: rest, cur =>
    if c = ',' || c = '\n' then cur.reverse :: splitSepAux rest []
    else splitSepAux rest (c :: cur)

/-- `extractCityFromAddress` (utils.js). -/
def extractCityFromAddress (address : String) : Option String :=
  if address = "" then none
  else
    let cleaned := remDigitRunsF (address.toList.length + 1) address.toList
    let parts := ((splitSepAux cleaned []).map
      (fun l => trimStr (String.mk l))).filter (fun p => p ≠ "")
    if 2 ≤ parts.length then
      let potentialCity := parts.getD (parts.length - 2) ""
      if stateTest potentialCity then none else some potentialCity
    else none

/-- `extractGender` (utils.js): first match of `/(male|female)/i`,
capitalized. The two alternatives can never match at the same position, so
trying them in order at each position models the regex exactly. -/
def genderScan : List Char → Option String
  | [] => none
  | c :: rest =>
    if (matchWordAt "male".toList (c :: rest)).isSome then some "Male"
    else if (matchWordAt "female".toList (c :: rest)).isSome then some "Female"
    else genderScan rest

/-- `extractGender` (utils.js). -/
def extractGender (text : String) : Option String :=
  if text = "" then none else genderScan text.toList

/-- Modelled from the spec: "date: parse any recognizable calendar string;
output calendar date in ISO form; null if unparsable."  The source's
`parseDate` delegates to the host's `new Date(...)` parser, which is not
embeddable; it is modelled as an abstract unparsable result.  No claim in
this development depends on the value of this field. -/
def parseDate (dateStr : String) : Option String :=
  if dateStr = "" then none else none

/-! ## URLs

A `Url` is an absolute URL split into its base (scheme + host + path) and
its ordered query-parameter list, mirroring what the source reads and
writes through `new URL(...)` / `searchParams`. All parameter names and
values occurring in this development are URL-safe, so
`encodeURIComponent` is the identity and `urlStr` is faithful
serialization. -/

structure Url where
  base : String
  params : List (String × String)
deriving DecidableEq, Repr

/-- `url.searchParams.get(k)`: value of the first occurrence, or `null`. -/
def getParam (u : Url) (k : String) : Option String :=
  (u.params.find? (fun p => p.1 == k)).map (fun p => p.2)

/-- Replace the value of the first occurrence of `k` and drop any later
occurrences (JS `URLSearchParams.set` on a present key). -/
def setParamAux (k v : String) : List (String × String) → List (String × String)
  | [] => []
  | p :: ps =>
    if p.1 == k then (k, v) :: ps.filter (fun q => q.1 ≠ k)
    else p :: setParamAux k v ps

/-- `url.searchParams.set(k, v)`. -/
def setParam (u : Url) (k v : String) : Url :=
  if u.params.any (fun p => p.1 == k) then { u with params := setParamAux k v u.params }
  else { u with params := u.params ++ [(k, v)] }

/-- `&`-join of serialized parameters. -/
def joinAmp : List String → String
  | [] => ""
  | [s] => s
  | s :: rest => s ++ "&" ++ joinAmp rest

/-- `url.href` / `url.toString()`. -/
def urlStr (u : Url) : String :=
  match u.params with
  | [] => u.base
  | _ => u.base ++ "?" ++ joinAmp (u.params.map (fun p => p.1 ++ "=" ++ p.2))

/-! ## Document model

A `Doc` records what each DOM query used by the source returns on a parsed
HTML document:
* `anchors`: every `<a>` element, in document order.  Per anchor we record
  its text, resolved absolute `href` (if any), class list, presence of a
  `disabled` attribute, and whether it is matched by the structural
  selectors `[class*="next"] a` and `.pagination a:last-child`.
* `pag*` fields: what `parsePaginationInfo`'s selectors see (presence of a
  `.pagination, .paging, [class*="page"]` container, the active element's
  text, the texts of `a, button, [data-page]` children, and the
  next-button query).
* `rows`: the `table.searchlist tbody tr` rows (listing pages).
* `bodyText`: `$('body').text()`.
* `tables`: the `table.table-bordered` elements (profile pages), each with
  its full text and its rows as cell-text lists.
* `nameElText` / `specialtyElText`: text of the
  `#specialistName, .specialist-name, [data-field="name"]` (resp.
  specialty) elements when present.
* `dls`: definition lists as `dt` texts and `dd` texts.
* `formEls`: the `input, select` elements under any `<form>`. -/

structure Anchor where
  text : String
  href : Option Url
  classes : List String
  disabledAttr : Bool
  inNextContainer : Bool
  isPagLastChild : Bool
deriving DecidableEq, Repr

structure Cell where
  text : String
  linkText : Option String
  linkHref : Option String
deriving DecidableEq, Repr

structure Row where
  isHeading : Bool
  cells : List Cell
deriving DecidableEq, Repr

structure PTable where
  text : String
  rows : List (List String)
deriving DecidableEq, Repr

structure Dl where
  labels : List String
  values : List String
deriving DecidableEq, Repr

structure OptEl where
  valueAttr : Option String
  text : String
  selected : Bool
deriving DecidableEq, Repr

structure FormEl where
  tag : String
  typeAttr : Option String
  nameAttr : Option String
  valueAttr : Option String
  checked : Bool
  options : List OptEl
deriving DecidableEq, Repr

structure Doc where
  anchors : List Anchor
  pagPresent : Bool
  pagActiveText : Option String
  pagLinkTexts : List String
  pagHasNextBtn : Bool
  pagNextBtnDisabled : Bool
  rows : List Row
  bodyText : String
  tables : List PTable
  nameElText : Option String
  specialtyElText : Option String
  dls : List Dl
  formEls : List FormEl
deriving DecidableEq, Repr

/-- A document on which every query comes back empty. -/
def emptyDoc : Doc :=
  ⟨[], false, none, [], false, false, [], "", [], none, none, [], []⟩

/-! ## `src/src/parser.js` : listing parser, pagination info, hasResults -/

/-- An entity stub extracted from one listing row. -/
structure Stub where
  nsrNo : String
  title : String
  name : String
  gender : String
  location : String
  specialty : String
  profileUrl : String
deriving DecidableEq, Repr

/-- The placeholder cell used for total indexing (never reached on rows
that pass the column-count guard). -/
def defCell : Cell := ⟨"", none, none⟩

/-- One iteration of the row loop of `parseListingPage`; `none` models the
early `return` (row skipped). -/
def parseListingRow (r : Row) : Option Stub :=
  if r.isHeading then none
  else
    let cells := r.cells
    if cells.length < 6 then none
    else
      let nsrNo := cleanText (cells.getD 0 defCell).text
      if !(isValidNsrNumber (some nsrNo)) then none
      else
        let title := cleanText (cells.getD 1 defCell).text
        let nameCell := cells.getD 2 defCell
        let rawLinkText := match nameCell.linkText with
          | some t => t
          | none => ""
        let name := cleanText (if rawLinkText = "" then nameCell.text else rawLinkText)
        let profileUrl := match nameCell.linkHref with
          | some h =>
            if h = "" then buildProfileUrl nsrNo
            else "https://www.nsr.org.my/" ++ h
          | none => buildProfileUrl nsrNo
        let gender := cleanText (cells.getD 3 defCell).text
        let location := cleanText (cells.getD 4 defCell).text
        let specialty := cleanText (cells.getD 5 defCell).text
        some ⟨nsrNo, title, name, gender, location, specialty, profileUrl⟩

/-- `parseListingPage` (parser.js). -/
def parseListingPage (doc : Doc) : List Stub :=
  doc.rows.filterMap parseListingRow

/-- The "no results" phrases of `hasResults` (parser.js). -/
def noResultsTexts : List String :=
  ["no records found", "no results", "no specialist found",
   "tidak ada rekod", "no data available"]

/-- `hasResults` (parser.js): true when a non-header result row exists;
otherwise scan the body text for "no results" phrases and return false
either way (the phrase loop returns false, and so does the fall-through). -/
def hasResults (doc : Doc) : Bool :=
  if 0 < (doc.rows.filter (fun r => !r.isHeading)).length then true
  else
    if noResultsTexts.any (fun t => strContainsSub (lowerStr doc.bodyText) t)
    then false
    else false

/-- Result of `parsePaginationInfo`. -/
structure PagInfo where
  currentPage : Int
  totalPages : Int
  hasNext : Bool
deriving DecidableEq, Repr

/-- `parsePaginationInfo` (parser.js). -/
def parsePaginationInfo (doc : Doc) : PagInfo :=
  if doc.pagPresent then
    let currentPage := match doc.pagActiveText with
      | some t =>
        match parseIntOpt (cleanText t) with
        | some n => n
        | none => 1
      | none => 1
    let nums := doc.pagLinkTexts.filterMap (fun t => parseIntOpt (cleanText t))
    let totalPages := match nums with
      | [] => 1
      | n :: rest => rest.foldl max n
    let hasNext := doc.pagHasNextBtn && !doc.pagNextBtnDisabled
    ⟨currentPage, totalPages, hasNext⟩
  else ⟨1, 1, false⟩

/-! ## Pagination Discovery Engine
(`isValidNextPageUrl` / `findNextPageUrl`, second file of
`src/unnamed/part_003`) -/

/-- The page-number clause of `isValidNextPageUrl`: reject when the `page`
parameter is present (truthy) and parses to a number that is `>= 1000` or
`<= currentPage`.  An empty parameter is falsy and skips the check; an
unparsable parameter gives `NaN`, and both `NaN >= 1000` and
`NaN <= currentPage` are false, so it passes. -/
def pageGuard (url : Url) (currentPage : Int) : Bool :=
  match getParam url "page" with
  | some s =>
    if s = "" then true
    else
      match parseIntOpt s with
      | some n => decide (¬(n ≥ 1000 ∨ n ≤ currentPage))
      | none => true
  | none => true

/-- The state-filter clause of `isValidNextPageUrl`: when the current URL
carries a truthy (non-empty) `state_ForSearch` value, the candidate must
carry the same value. -/
def filterGuard (url currentUrl : Url) : Bool :=
  match getParam currentUrl "state_ForSearch" with
  | some cf =>
    if cf = "" then true
    else getParam url "state_ForSearch" == some cf
  | none => true

/-- `isValidNextPageUrl` (part_003). The `try`/`catch` of the source only
guards `new URL(...)` construction, which cannot fail on the structured
URLs of this model. -/
def isValidNextPageUrl (url currentUrl : Url) (currentPage : Int) : Bool :=
  pageGuard url currentPage
    && !(urlStr url == urlStr currentUrl)
    && filterGuard url currentUrl

/-- `.not('.disabled, [disabled]')` exclusion used by strategy 1. -/
def anchorDisabled (a : Anchor) : Bool :=
  a.classes.contains "disabled" || a.disabledAttr

/-- The `nextSelectors` list of `findNextPageUrl`, as anchor predicates,
in source order. -/
def s1Selectors : List (Anchor → Bool) :=
  [fun a => strContainsSub a.text "Next",
   fun a => strContainsSub a.text "›",
   fun a => strContainsSub a.text ">>",
   fun a => strContainsSub a.text ">",
   fun a => a.inNextContainer,
   fun a => a.isPagLastChild]

/-- One iteration of strategy 1 of `findNextPageUrl`: take the first
anchor matched by the selector (minus disabled ones), read its `href`,
validate, and additionally require any parsed page number to exceed
`currentPage`. -/
def strat1Try (doc : Doc) (currentUrl : Url) (currentPage : Int)
    (sel : Anchor → Bool) : Option Url :=
  match doc.anchors.find? (fun a => sel a && !anchorDisabled a) with
  | none => none
  | some a =>
    match a.href with
    | none => none
    | some u =>
      if isValidNextPageUrl u currentUrl currentPage then
        match getParam u "page" with
        | none => some u
        | some s =>
          if s = "" then some u
          else
            match parseIntOpt s with
            | some n => if currentPage < n then some u else none
            | none => none
      else none

/-- Strategy 1 of `findNextPageUrl`: try the selectors in order. -/
def strat1Go (doc : Doc) (currentUrl : Url) (currentPage : Int) :
    List (Anchor → Bool) → Option Url
  | [] => none
  | sel :: rest =>
    match strat1Try doc currentUrl currentPage sel with
    | some u => some u
    | none => strat1Go doc currentUrl currentPage rest

/-- Strategy 1 of `findNextPageUrl`. -/
def strat1 (doc : Doc) (currentUrl : Url) (currentPage : Int) : Option Url :=
  strat1Go doc currentUrl currentPage s1Selectors

/-- A page-number link collected by strategy 2. -/
structure PageLink where
  page : Int
  url : Url
deriving DecidableEq, Repr

/-- The body of strategy 2's `.each` callback: turn one anchor into a
collected page link, or skip it. -/
def strat2Link (currentUrl : Url) (currentPage : Int) (a : Anchor) :
    Option PageLink :=
  match a.href with
  | none => none
  | some u =>
    if isValidNextPageUrl u currentUrl currentPage then
      match getParam u "page" with
      | some s =>
        if s = "" then
          -- empty `page` parameter is falsy: fall to the text branch
          match parseIntOpt (trimStr a.text) with
          | some n => if currentPage < n ∧ n < 1000 then some ⟨n, u⟩ else none
          | none => none
        else
          match parseIntOpt s with
          | some n => if currentPage < n ∧ n < 1000 then some ⟨n, u⟩ else none
          | none => none
      | none =>
        match parseIntOpt (trimStr a.text) with
        | some n => if currentPage < n ∧ n < 1000 then some ⟨n, u⟩ else none
        | none => none
    else none

/-- Strategy 2's anchor set: `a[href*="page="], a[href*="list1pview"]`. -/
def strat2Anchors (doc : Doc) : List Anchor :=
  doc.anchors.filter (fun a =>
    match a.href with
    | some u => strContainsSub (urlStr u) "page=" || strContainsSub (urlStr u) "list1pview"
    | none => false)

/-- `pageLinks` of strategy 2. -/
def strat2Links (doc : Doc) (currentUrl : Url) (currentPage : Int) :
    List PageLink :=
  (strat2Anchors doc).filterMap (strat2Link currentUrl currentPage)

/-- The first element of the stable ascending sort by page number
(`pageLinks.sort((a, b) => a.page - b.page)` then `pageLinks[0]`): the
first link holding the minimal page number. -/
def pickMinPage : List PageLink → Option PageLink
  | [] => none
  | l :: ls => some (ls.foldl (fun b x => if x.page < b.page then x else b) l)

/-- Strategy 2 of `findNextPageUrl`. -/
def strat2 (doc : Doc) (currentUrl : Url) (currentPage : Int) : Option Url :=
  (pickMinPage (strat2Links doc currentUrl currentPage)).map (fun l => l.url)

/-- Strategies 3 and 4 of `findNextPageUrl`: stop unless the pagination
summary asserts a next page, then construct `currentUrl` with
`page = currentPage + 1` and re-validate. -/
def strat34 (doc : Doc) (currentUrl : Url) (currentPage : Int) : Option Url :=
  let paginationInfo := parsePaginationInfo doc
  let hasNextPage := paginationInfo.hasNext
    && decide (paginationInfo.currentPage < paginationInfo.totalPages)
  if !hasNextPage then none
  else
    let nextPage := currentPage + 1
    if nextPage ≥ 1000 then none
    else
      let nextUrl := setParam currentUrl "page" (intToStr nextPage)
      if isValidNextPageUrl nextUrl currentUrl currentPage then some nextUrl
      else none

/-- `findNextPageUrl` (part_003): first successful strategy wins. -/
def findNextPageUrl (doc : Doc) (currentUrl : Url) (currentPage : Int) :
    Option Url :=
  match strat1 doc currentUrl currentPage with
  | some u => some u
  | none =>
    match strat2 doc currentUrl currentPage with
    | some u => some u
    | none => strat34 doc currentUrl currentPage

/-- Parsed page number of a candidate URL: its `page` query parameter run
through `parseInt`. -/
def getPageNum (u : Url) : Option Int :=
  match getParam u "page" with
  | some s => parseIntOpt s
  | none => none

/-! ## Repeated pagination discovery (the walk of claim C2)

`countSteps` feeds a stream of fetched documents to `findNextPageUrl`,
threading the accepted candidate as the next current URL and
`currentPage + 1` as the next page index (exactly how the crawlers thread
`request.userData.page + 1`), and counts accepted next-page transitions;
the pages visited are the starting page plus the accepted transitions. -/
def countSteps : List Doc → Url → Int → Nat
  | [], _, _ => 0
  | d :: ds, url, currentPage =>
    match findNextPageUrl d url currentPage with
    | none => 0
    | some u => 1 + countSteps ds u (currentPage + 1)

/-- Does every candidate accepted along the walk carry a parsable `page`
parameter? -/
def walkParamsOk : List Doc → Url → Int → Bool
  | [], _, _ => true
  | d :: ds, url, currentPage =>
    match findNextPageUrl d url currentPage with
    | none => true
    | some u => (getPageNum u).isSome && walkParamsOk ds u (currentPage + 1)

/-! ## `extractFormFields` (src/src/main.js) -/

/-- `$el.attr('type') || $el.prop('tagName').toLowerCase()`: an absent or
empty `type` attribute falls back to the tag name — so an `<input>`
without a `type` attribute gets type "input", while `<input type="text">`
gets "text". -/
def jsElType (el : FormEl) : String :=
  match el.typeAttr with
  | some t => if t = "" then el.tag else t
  | none => el.tag

/-- `formData[name] = v` on a JS object: overwrite in place if the key
exists, else append. -/
def fdSet : List (String × String) → String → String → List (String × String)
  | [], k, v => [(k, v)]
  | p :: ps, k, v =>
    if p.1 = k then (k, v) :: ps else p :: fdSet ps k v

/-- Lookup in the extracted form-data mapping. -/
def fdGet (fd : List (String × String)) (k : String) : Option String :=
  (fd.find? (fun p => p.1 == k)).map (fun p => p.2)

/-- The body of `extractFormFields`'s `.each` callback. -/
def formFieldStep (fd : List (String × String)) (el : FormEl) :
    List (String × String) :=
  match el.nameAttr with
  | none => fd
  | some name =>
    if name = "" then fd  -- `if (!name) return;`
    else
      let ty := jsElType el
      if ty = "hidden" ∨ ty = "input" then
        fdSet fd name (el.valueAttr.getD "")
      else if ty = "select" then
        let selectedEls := el.options.filter (fun o => o.selected)
        let v := match selectedEls with
          | s0 :: _ =>
            -- `selected.attr('value') || selected.text()`; `.text()` of a
            -- selection concatenates the texts of all selected options
            let va := s0.valueAttr.getD ""
            if va = "" then String.join (selectedEls.map (fun o => o.text)) else va
          | [] =>
            match el.options with
            | o :: _ => o.valueAttr.getD ""
            | [] => ""
        fdSet fd name v
      else if ty = "checkbox" ∨ ty = "radio" then
        if el.checked then
          let va := el.valueAttr.getD ""
          fdSet fd name (if va = "" then "on" else va)
        else fd
      else fd

/-- `extractFormFields` (main.js). -/
def extractFormFields (doc : Doc) : List (String × String) :=
  doc.formEls.foldl formFieldStep []

/-! ## Frontier / task model

`CrawlTask`s mirror the requests the handlers enqueue. Crawlee
deduplicates requests by `uniqueKey`; when none is given (the PROFILE
requests of both crawlers) the key defaults to the request URL. -/

inductive Task where
  | search : (url : String) → (uniqueKey : String) → (page : Int) → Task
  | profile : (url : String) → (nsrNo : String) → Task
deriving DecidableEq, Repr

def Task.isSearch : Task → Bool
  | .search .. => true
  | _ => false

def Task.isProfile : Task → Bool
  | .profile .. => true
  | _ => false

def Task.isProfileFor (id : String) : Task → Bool
  | .profile _ n => n == id
  | _ => false

/-- The request queue with its dedup discipline: insertion is
check-and-insert on the unique key. -/
structure Frontier where
  keys : List String
  tasks : List Task
deriving DecidableEq, Repr

def Frontier.empty : Frontier := ⟨[], []⟩

/-- `crawler.addRequests([...])` for one request: enqueue unless the
unique key was already seen. -/
def addRequest (f : Frontier) (key : String) (t : Task) : Frontier :=
  if key ∈ f.keys then f else ⟨f.keys ++ [key], f.tasks ++ [t]⟩

/-- Dedup key of a PROFILE (DETAIL) request: the handlers pass no
`uniqueKey`, so crawlee defaults it to the request URL — the stub's
`profileUrl`. -/
def profileKey (s : Stub) : String := s.profileUrl

/-- The PROFILE-enqueueing loop shared by both handlers. -/
def enqueueProfiles (stubs : List Stub) (f : Frontier) : Frontier :=
  stubs.foldl (fun f s => addRequest f (profileKey s) (Task.profile s.profileUrl s.nsrNo)) f

/-! ## `handleSearchPage` (src/src/main.js) and `handleListPage`
(src/unnamed/part_003), as emission functions: the list of follow-up
requests each handler enqueues for one fetched document. -/

/-- The next-page anchor query of `handleSearchPage` (main.js):
`$('a:contains("Next"), a:contains("›"), .pagination a:last-child').not('.disabled')`,
first match, then its `href`. -/
def nextCandidateMain (doc : Doc) : Option Url :=
  match doc.anchors.find? (fun a =>
      (strContainsSub a.text "Next" || strContainsSub a.text "›"
        || a.isPagLastChild)
      && !(a.classes.contains "disabled")) with
  | none => none
  | some a => a.href

/-- The pagination decision of `handleSearchPage` (main.js): a next-page
URL is enqueued exactly when `parsePaginationInfo` reports `hasNext` and
the next-anchor query yields an `href`. -/
def nextDecisionMain (doc : Doc) : Option Url :=
  if (parsePaginationInfo doc).hasNext then nextCandidateMain doc else none

/-- `handleSearchPage` (main.js), as the list of requests it enqueues: on
a page with results, one PROFILE request per parsed stub, then a SEARCH
request for `page + 1` when the pagination decision yields a URL. -/
def handleSearchPage (doc : Doc) (stateId : Int) (page : Int) : List Task :=
  if !hasResults doc then []
  else
    let specialists := parseListingPage doc
    let details := specialists.map (fun s => Task.profile s.profileUrl s.nsrNo)
    let nxt := match nextDecisionMain doc with
      | some u =>
        [Task.search (urlStr u)
          ("SEARCH-" ++ intToStr stateId ++ "-" ++ intToStr (page + 1))
          (page + 1)]
      | none => []
    details ++ nxt

/-- `handleListPage` (part_003), as the list of requests it enqueues: one
PROFILE request per parsed stub and nothing else — in full-crawl mode all
listing pages are pre-generated, and in state-filtered mode the source
explicitly disables pagination ("pagination disabled for filtered
results"), so neither branch enqueues a further listing request. -/
def handleListPage (doc : Doc) (isFullCrawl : Bool) : List Task :=
  if !hasResults doc then []
  else
    let specialists := parseListingPage doc
    let details := specialists.map (fun s => Task.profile s.profileUrl s.nsrNo)
    -- `if (isFullCrawl) { log } else { log }`: no pagination in either branch
    (fun _ => details) isFullCrawl

/-! ## `parseProfilePage` (src/src/parser.js) -/

/-- A structured qualification triple; `year` is `none` for an empty or
unparsable year cell (`year ? parseInt(year) : null`, with `NaN` not
distinguished from `null` by any claim). -/
structure Qual where
  degree : String
  awardingBody : String
  year : Option Int
deriving DecidableEq, Repr

/-- The record `parseProfilePage` builds. -/
structure Specialist where
  nsrNo : String
  profileUrl : String
  name : Option String
  jobTitle : Option String
  title : Option String
  gender : Option String
  specialty : Option String
  qualifications : List String
  qualificationsStructured : List Qual
  state : Option String
  stateId : Option Nat
  state_category : Option String
  city : Option String
  address : Option String
  establishment : Option String
  sector : Option String
  lastRenewalDate : Option String
deriving DecidableEq, Repr

/-- The initial record of `parseProfilePage`: the input id and its
canonical profile URL, everything else null/empty. -/
def initSpecialist (nsrNo : String) : Specialist :=
  { nsrNo := nsrNo
    profileUrl := buildProfileUrl nsrNo
    name := none, jobTitle := none, title := none, gender := none
    specialty := none, qualifications := [], qualificationsStructured := []
    state := none, stateId := none, state_category := none, city := none
    address := none, establishment := none, sector := none
    lastRenewalDate := none }

/-- JS truthiness of a nullable string field (`!specialist.name`). -/
def optFalsy : Option String → Bool
  | none => true
  | some s => s = ""

/-- The section flags threaded across the `table.table-bordered` loop. -/
structure SecFlags where
  inPersonalData : Bool
  inClinicalPractice : Bool
  inQualifications : Bool
deriving DecidableEq, Repr

/-- Update the section flags from one table's full text. -/
def updateFlags (f : SecFlags) (tableText : String) : SecFlags :=
  if strContainsSub tableText "Personal Data" then ⟨true, false, false⟩
  else if strContainsSub tableText "Clinical Practice" then ⟨false, true, false⟩
  else if strContainsSub tableText "Qualifications"
      || strContainsSub tableText "Degree/Membership/Fellowship" then
    ⟨false, false, true⟩
  else f

/-- The address branch shared by the table scan and the definition-list
scan: store the address and derive state and city from it. -/
def applyAddress (sp : Specialist) (value : String) : Specialist :=
  let stateInfo := extractStateFromAddress value
  { sp with
    address := some value
    state := some stateInfo.stateName
    stateId := some stateInfo.stateId
    state_category := some stateInfo.stateCategory
    city := extractCityFromAddress value }

/-- The body of the row loop of `parseProfilePage`. -/
def processProfileRow (inputNsr : String) (f : SecFlags) (sp : Specialist)
    (cells : List String) : Specialist :=
  if f.inQualifications ∧ cells.length = 3 then
    let degree := cleanText (cells.getD 0 "")
    let awardingBody := cleanText (cells.getD 1 "")
    let year := cleanText (cells.getD 2 "")
    if degree ≠ ""
        ∧ ¬(strContainsSub (lowerStr degree) "degree/membership" = true)
        ∧ ¬(strContainsSub (lowerStr degree) "basic degree" = true)
        ∧ ¬(strContainsSub (lowerStr degree) "specialist degree" = true)
        ∧ awardingBody ≠ ""
        ∧ ¬(strContainsSub (lowerStr awardingBody) "awarding body" = true) then
      { sp with
        qualifications := sp.qualifications
          ++ [degree ++ " (" ++ awardingBody ++ ", " ++ year ++ ")"]
        qualificationsStructured := sp.qualificationsStructured
          ++ [⟨degree, awardingBody, if year = "" then none else parseIntOpt year⟩] }
    else sp
  else if 2 ≤ cells.length then
    let label := lowerStr (cleanText (cells.getD (cells.length - 2) ""))
    let value := cleanText (cells.getD (cells.length - 1) "")
    if strContainsSub label "nsr no" then
      { sp with nsrNo := if value = "" then inputNsr else value }
    else if label = "title" ∧ f.inPersonalData then { sp with title := some value }
    else if label = "name" ∧ f.inPersonalData then { sp with name := some value }
    else if label = "name" ∧ f.inClinicalPractice then
      { sp with establishment := some value }
    else if strContainsSub label "gender" then
      { sp with gender := some ((extractGender value).getD value) }
    else if strContainsSub label "field" ∧ strContainsSub label "practice" then
      { sp with specialty := some value }
    else if strContainsSub label "address" then applyAddress sp value
    else if strContainsSub label "sector" then { sp with sector := some value }
    else if strContainsSub label "renewal" ∨ strContainsSub label "last renewed" then
      { sp with lastRenewalDate := parseDate value }
    else sp
  else sp

/-- One `table.table-bordered` iteration: update the section flags from
the table's text, then fold its rows. -/
def processTable (inputNsr : String) (acc : SecFlags × Specialist)
    (t : PTable) : SecFlags × Specialist :=
  let f := updateFlags acc.1 t.text
  (f, t.rows.foldl (processProfileRow inputNsr f) acc.2)

/-- One definition-list iteration: `dt`/`dd` pairs (indices past the
shorter list are skipped), keyword-matched into still-empty fields. -/
def processDl (sp : Specialist) (dl : Dl) : Specialist :=
  (dl.labels.zip dl.values).foldl
    (fun sp pr =>
      let labelText := lowerStr (cleanText pr.1)
      let valueText := cleanText pr.2
      if strContainsSub labelText "name" ∧ optFalsy sp.name = true then
        { sp with name := some valueText }
      else if strContainsSub labelText "specialty" ∧ optFalsy sp.specialty = true then
        { sp with specialty := some valueText }
      else if strContainsSub labelText "address" ∧ optFalsy sp.address = true then
        applyAddress sp valueText
      else sp)
    sp

/-- `parseProfilePage` (parser.js). -/
def parseProfilePage (doc : Doc) (nsrNo : String) : Specialist :=
  let sp0 := initSpecialist nsrNo
  let sp1 := (doc.tables.foldl (processTable nsrNo) (⟨false, false, false⟩, sp0)).2
  let sp2 := match doc.nameElText with
    | some t => if optFalsy sp1.name then { sp1 with name := some (cleanText t) } else sp1
    | none => sp1
  let sp3 := match doc.specialtyElText with
    | some t =>
      if optFalsy sp2.specialty then { sp2 with specialty := some (cleanText t) }
      else sp2
    | none => sp2
  let sp4 := doc.dls.foldl processDl sp3
  if optFalsy sp4.state && !(optFalsy sp4.address) then
    let stateInfo := extractStateFromAddress (sp4.address.getD "")
    { sp4 with
      state := some stateInfo.stateName
      stateId := some stateInfo.stateId
      state_category := some stateInfo.stateCategory }
  else sp4

/-! ## Lemmas: every candidate returned by `findNextPageUrl` passes
`isValidNextPageUrl`, and what the guard implies. -/

theorem parseIntOpt_empty : parseIntOpt "" = none := rfl

/-- A true page guard bounds any parsed page number strictly between
`currentPage` and the threshold 1000. -/
theorem pageGuard_bounds {u : Url} {cp : Int} {s : String} {n : Int}
    (hg : pageGuard u cp = true) (hs : getParam u "page" = some s)
    (hn : parseIntOpt s = some n) : cp < n ∧ n < 1000 := by
  unfold pageGuard at hg
  split at hg
  · rename_i s' hs'
    have hss : s' = s := by
      rw [hs] at hs'
      exact (Option.some.injEq .. ▸ hs').symm
    subst hss
    by_cases he : s' = ""
    · rw [he, parseIntOpt_empty] at hn
      cases hn
    · rw [if_neg he, hn] at hg
      simp only [decide_eq_true_eq] at hg
      omega
  · rename_i hs'
    rw [hs] at hs'
    cases hs'

/-- A true filter guard propagates a non-empty current filter value to the
candidate. -/
theorem filterGuard_preserves {u cur : Url} {v : String}
    (hf : filterGuard u cur = true)
    (hv : getParam cur "state_ForSearch" = some v) (hne : v ≠ "") :
    getParam u "state_ForSearch" = some v := by
  unfold filterGuard at hf
  split at hf
  · rename_i v' hv'
    rw [hv] at hv'
    have hvv : v' = v := by injection hv' with h; exact h.symm
    subst hvv
    rw [if_neg hne] at hf
    exact eq_of_beq hf
  · rename_i hv'
    rw [hv] at hv'
    cases hv'

theorem strat1Try_valid {doc : Doc} {cur : Url} {cp : Int}
    {sel : Anchor → Bool} {u : Url} (h : strat1Try doc cur cp sel = some u) :
    isValidNextPageUrl u cur cp = true := by
  unfold strat1Try at h
  split at h
  · exact absurd h (by simp)
  · split at h
    · exact absurd h (by simp)
    · split at h
      · rename_i hvalid
        split at h
        · cases h; exact hvalid
        · split at h
          · cases h; exact hvalid
          · split at h
            · split at h
              · cases h; exact hvalid
              · exact absurd h (by simp)
            · exact absurd h (by simp)
      · exact absurd h (by simp)

theorem strat1Go_valid {doc : Doc} {cur : Url} {cp : Int} :
    ∀ (sels : List (Anchor → Bool)) (u : Url),
      strat1Go doc cur cp sels = some u → isValidNextPageUrl u cur cp = true := by
  intro sels
  induction sels with
  | nil => intro u h; simp [strat1Go] at h
  | cons sel rest ih =>
    intro u h
    unfold strat1Go at h
    split at h
    · rename_i h1
      cases h
      exact strat1Try_valid h1
    · exact ih u h

theorem strat2Link_valid {cur : Url} {cp : Int} {a : Anchor} {pl : PageLink}
    (h : strat2Link cur cp a = some pl) :
    isValidNextPageUrl pl.url cur cp = true := by
  unfold strat2Link at h
  split at h
  · exact absurd h (by simp)
  · split at h
    · rename_i hvalid
      split at h
      · split at h
        · split at h
          · split at h
            · cases h; exact hvalid
            · exact absurd h (by simp)
          · exact absurd h (by simp)
        · split at h
          · split at h
            · cases h; exact hvalid
            · exact absurd h (by simp)
          · exact absurd h (by simp)
      · split at h
        · split at h
          · cases h; exact hvalid
          · exact absurd h (by simp)
        · exact absurd h (by simp)
    · exact absurd h (by simp)

theorem pickMinPage_foldl_mem :
    ∀ (ls : List PageLink) (b : PageLink),
      (ls.foldl (fun b x => if x.page < b.page then x else b) b) ∈ b :: ls := by
  intro ls
  induction ls with
  | nil => intro b; simp
  | cons x ls ih =>
    intro b
    simp only [List.foldl_cons]
    by_cases hc : x.page < b.page
    · rw [if_pos hc]
      exact List.mem_cons_of_mem b (ih x)
    · rw [if_neg hc]
      rcases List.mem_cons.mp (ih b) with h | h
      · rw [h]
        exact List.mem_cons_self b _
      · exact List.mem_cons_of_mem b (List.mem_cons_of_mem x h)

theorem pickMinPage_mem {l : List PageLink} {x : PageLink}
    (h : pickMinPage l = some x) : x ∈ l := by
  match l with
  | [] => simp [pickMinPage] at h
  | a :: ls =>
    simp only [pickMinPage, Option.some.injEq] at h
    rw [← h]
    exact pickMinPage_foldl_mem ls a

theorem strat2_valid {doc : Doc} {cur : Url} {cp : Int} {u : Url}
    (h : strat2 doc cur cp = some u) : isValidNextPageUrl u cur cp = true := by
  unfold strat2 at h
  rcases Option.map_eq_some'.mp h with ⟨pl, hpl, hu⟩
  have hmem := pickMinPage_mem hpl
  rcases List.mem_filterMap.mp hmem with ⟨a, _, ha⟩
  rw [← hu]
  exact strat2Link_valid ha

theorem strat34_valid {doc : Doc} {cur : Url} {cp : Int} {u : Url}
    (h : strat34 doc cur cp = some u) : isValidNextPageUrl u cur cp = true := by
  unfold strat34 at h
  dsimp only at h
  split at h
  · exact absurd h (by simp)
  · split at h
    · exact absurd h (by simp)
    · split at h
      · rename_i hvalid
        cases h
        exact hvalid
      · exact absurd h (by simp)

/-- Every candidate `findNextPageUrl` returns passes the validity guard:
each of the four strategies only returns URLs it has run through
`isValidNextPageUrl`. -/
theorem findNextPageUrl_valid {doc : Doc} {cur : Url} {cp : Int} {u : Url}
    (h : findNextPageUrl doc cur cp = some u) :
    isValidNextPageUrl u cur cp = true := by
  unfold findNextPageUrl at h
  split at h
  · rename_i h1
    cases h
    exact strat1Go_valid _ _ h1
  · split at h
    · rename_i h2
      cases h
      exact strat2_valid h2
    · exact strat34_valid h

/-- Decomposition of the validity guard. -/
theorem isValid_parts {u cur : Url} {cp : Int}
    (h : isValidNextPageUrl u cur cp = true) :
    pageGuard u cp = true ∧ filterGuard u cur = true := by
  unfold isValidNextPageUrl at h
  simp only [Bool.and_eq_true] at h
  exact ⟨h.1.1, h.2⟩

/-! ## Concrete example inputs -/

/-- A state-filtered listing URL (state 1, page 1). -/
def cur2 : Url := ⟨"https://nsr.org.my/list1pview.asp", [("state_ForSearch", "1")]⟩

/-- Its page-2 successor. -/
def u2 : Url :=
  ⟨"https://nsr.org.my/list1pview.asp", [("state_ForSearch", "1"), ("page", "2")]⟩

/-- A results document with a "Next" link to page 2 (filter preserved). -/
def docNext2 : Doc :=
  { emptyDoc with anchors := [⟨"Next", some u2, [], false, false, false⟩] }

/-- Current URL for the page-1006 scenario of C1. -/
def url1006 : Url := ⟨"https://nsr.org.my/list1pview.asp", [("state_ForSearch", "1")]⟩

/-- A link into the unfiltered full list at page 1006. -/
def cand1006 : Url := ⟨"https://nsr.org.my/list1pview.asp", [("page", "1006")]⟩

/-- A document whose only pagination link points to page 1006. -/
def doc1006 : Doc :=
  { emptyDoc with
    anchors := [⟨"1006", some cand1006, [], false, false, true⟩]
    pagPresent := true
    pagLinkTexts := ["1006"] }

/-- A current URL whose `state_ForSearch` parameter is present with an
empty value (falsy in JS). -/
def curE : Url := ⟨"https://nsr.org.my/list1pview.asp", [("state_ForSearch", "")]⟩

/-- A page-2 candidate that drops the filter parameter entirely. -/
def uE2 : Url := ⟨"https://nsr.org.my/list1pview.asp", [("page", "2")]⟩

/-- A results document whose "Next" link drops the filter parameter. -/
def docE : Doc :=
  { emptyDoc with anchors := [⟨"Next", some uE2, [], false, false, false⟩] }

/-- Two listing URLs that differ only in an auxiliary parameter and carry
no `page` parameter. -/
def uA : Url :=
  ⟨"https://nsr.org.my/list1pview.asp", [("state_ForSearch", "1"), ("tok", "A")]⟩

def uB : Url :=
  ⟨"https://nsr.org.my/list1pview.asp", [("state_ForSearch", "1"), ("tok", "B")]⟩

/-- A results page whose "Next" link points at `uA` (no page parameter:
the page-number clause of the validity guard is skipped). -/
def docA : Doc :=
  { emptyDoc with anchors := [⟨"Next", some uA, [], false, false, false⟩] }

/-- Likewise with a "Next" link to `uB`. -/
def docB : Doc :=
  { emptyDoc with anchors := [⟨"Next", some uB, [], false, false, false⟩] }

/-- An alternating stream of `docA`/`docB` documents; paired with current
URL `uB` when the flag is true and `uA` when it is false. -/
def mkAlt : Nat → Bool → List Doc
  | 0, _ => []
  | k + 1, true => docA :: mkAlt k false
  | k + 1, false => docB :: mkAlt k true

theorem findNext_docA (cp : Int) : findNextPageUrl docA uB cp = some uA := rfl

theorem findNext_docB (cp : Int) : findNextPageUrl docB uA cp = some uB := rfl

theorem mkAlt_count : ∀ (k : Nat) (b : Bool) (cp : Int),
    countSteps (mkAlt k b) (cond b uB uA) cp = k := by
  intro k
  induction k with
  | zero => intro b cp; cases b <;> rfl
  | succ k ih =>
    intro b cp
    cases b
    · show countSteps (docB :: mkAlt k true) uA cp = k + 1
      simp only [countSteps, findNext_docB]
      have := ih true (cp + 1)
      simp only [cond] at this
      omega
    · show countSteps (docA :: mkAlt k false) uB cp = k + 1
      simp only [countSteps, findNext_docA]
      have := ih false (cp + 1)
      simp only [cond] at this
      omega

/-! ## Claims C1 - C3 -/

/-- C1: for every parsed results document, originating URL and
currentPage ≥ 1, any candidate returned by `findNextPageUrl` whose URL
carries a page number has that number strictly above `currentPage` and
strictly below the unfiltered-listing threshold 1000; and in particular,
for currentPage = 1 and a document whose only pagination link points to
page 1006, no candidate is returned. -/
theorem findNextPageUrl_respects_page_guard :
    (∀ (doc : Doc) (cur : Url) (cp : Int) (u : Url) (s : String) (n : Int),
        1 ≤ cp →
        findNextPageUrl doc cur cp = some u →
        getParam u "page" = some s →
        parseIntOpt s = some n →
        cp < n ∧ n < 1000)
      ∧ findNextPageUrl doc1006 url1006 1 = none := by
  constructor
  · intro doc cur cp u s n _ h hs hn
    have hv := findNextPageUrl_valid h
    exact pageGuard_bounds (isValid_parts hv).1 hs hn
  · rfl

/-- Witness for C1: the engine accepts the page-2 link of `docNext2` at
currentPage 1, and 1 < 2 < 1000. -/
theorem findNextPageUrl_respects_page_guard_witness :
    (1 : Int) < 2 ∧ (2 : Int) < 1000 :=
  findNextPageUrl_respects_page_guard.1 docNext2 cur2 1 u2 "2" 2
    (by norm_num) rfl rfl rfl

/-- Counterexample to C2 as stated: a walk driven by `findNextPageUrl` in
which every accepted "Next" link carries no `page` parameter (so the
threshold clause of the guard never fires) makes 1000 accepted
transitions starting from page 1 — 1001 listing pages visited, exceeding
the claimed bound of 1000 pages per EntityTarget. -/
theorem pagination_walk_exceeds_threshold :
    1 + countSteps (mkAlt 1000 true) uB 1 = 1001 := by
  have h := mkAlt_count 1000 true 1
  simp only [cond] at h
  omega

/-- C2 as amended: along any walk in which every accepted candidate
carries a parsable `page` parameter, each step strictly increases the
page number while the guard keeps it below 1000, so the number of
accepted next-page transitions from page `cp ≥ 1` is at most
`1000 - cp` — at most 999 transitions, i.e. at most 1000 listing pages
visited per EntityTarget. -/
theorem pagination_walk_bounded :
    ∀ (docs : List Doc) (url : Url) (cp : Int),
      1 ≤ cp → walkParamsOk docs url cp = true →
      countSteps docs url cp ≤ (1000 - cp).toNat := by
  intro docs
  induction docs with
  | nil =>
    intro url cp _ _
    simp [countSteps]
  | cons d ds ih =>
    intro url cp h1 hw
    simp only [countSteps, walkParamsOk] at *
    cases hf : findNextPageUrl d url cp with
    | none =>
      exact Nat.zero_le _
    | some u =>
      rw [hf] at hw
      have hw2 : ((getPageNum u).isSome && walkParamsOk ds u (cp + 1)) = true := hw
      show 1 + countSteps ds u (cp + 1) ≤ (1000 - cp).toNat
      simp only [Bool.and_eq_true] at hw2
      rcases hw2 with ⟨hp, hrest⟩
      rcases Option.isSome_iff_exists.mp hp with ⟨n, hn⟩
      unfold getPageNum at hn
      cases hg : getParam u "page" with
      | none => rw [hg] at hn; cases hn
      | some s =>
        rw [hg] at hn
        have hv := findNextPageUrl_valid hf
        have hb := pageGuard_bounds (isValid_parts hv).1 hg hn
        have ih2 := ih u (cp + 1) (by omega) hrest
        omega

/-- Witness for C2 (amended): a one-document walk whose accepted
candidate carries page parameter 2 makes one transition, within the
bound. -/
theorem pagination_walk_bounded_witness :
    walkParamsOk [docNext2] cur2 1 = true ∧
      countSteps [docNext2] cur2 1 ≤ ((1000 : Int) - 1).toNat :=
  ⟨rfl, pagination_walk_bounded [docNext2] cur2 1 (by norm_num) rfl⟩

/-- Counterexample to C3 as stated: the filter parameter is present on
the current URL (with an empty value, which is falsy in JS), yet the
engine returns a candidate on which the parameter is absent — the guard
`if (currentStateFilter && ...)` skips the comparison for a falsy
current value. -/
theorem findNextPageUrl_drops_empty_filter :
    getParam curE "state_ForSearch" = some "" ∧
      findNextPageUrl docE curE 1 = some uE2 ∧
      getParam uE2 "state_ForSearch" = none :=
  ⟨rfl, rfl, rfl⟩

/-- C3 as amended: when the current URL carries the `state_ForSearch`
filter with a non-empty value, every candidate returned by
`findNextPageUrl` carries the same filter value. -/
theorem findNextPageUrl_preserves_filter :
    ∀ (doc : Doc) (cur : Url) (cp : Int) (v : String) (u : Url),
      v ≠ "" →
      getParam cur "state_ForSearch" = some v →
      findNextPageUrl doc cur cp = some u →
      getParam u "state_ForSearch" = some v := by
  intro doc cur cp v u hne hcur h
  exact filterGuard_preserves (isValid_parts (findNextPageUrl_valid h)).2 hcur hne

/-- Witness for C3 (amended): the accepted page-2 candidate of `docNext2`
carries the current non-empty filter value "1". -/
theorem findNextPageUrl_preserves_filter_witness :
    getParam u2 "state_ForSearch" = some "1" :=
  findNextPageUrl_preserves_filter docNext2 cur2 1 "1" u2 (by decide) rfl rfl

/-! ## Claims C4 - C5 -/

/-- A valid listing row whose name cell carries a link. -/
def rowLink : Row :=
  ⟨false,
    [⟨"123456", none, none⟩, ⟨"Dr", none, none⟩,
     ⟨"Alice Tan", some "Alice Tan", some "ViewSpecialistProfile.jsp?nsrNo=123456"⟩,
     ⟨"Female", none, none⟩, ⟨"Kuala Lumpur", none, none⟩,
     ⟨"Cardiology", none, none⟩]⟩

/-- The same record rediscovered on another listing page, this time
without a link in the name cell (the parser then falls back to the
constructed canonical profile URL). -/
def rowNoLink : Row :=
  ⟨false,
    [⟨"123456", none, none⟩, ⟨"Dr", none, none⟩,
     ⟨"Alice Tan", none, none⟩,
     ⟨"Female", none, none⟩, ⟨"Kuala Lumpur", none, none⟩,
     ⟨"Cardiology", none, none⟩]⟩

/-- A listing document yielding two stubs with the same id but different
profile URLs. -/
def docDup : Doc := { emptyDoc with rows := [rowLink, rowNoLink] }

/-- Current URL for the C4 scenario. -/
def curC4 : Url := ⟨"https://nsr.org.my/list1pview.asp", [("state_ForSearch", "1")]⟩

/-- The page-2 candidate of the C4 scenario. -/
def uC4 : Url :=
  ⟨"https://nsr.org.my/list1pview.asp", [("state_ForSearch", "1"), ("page", "2")]⟩

/-- A state-filtered results document with one valid row and a perfectly
valid "Next" link to page 2. -/
def docC4 : Doc :=
  { emptyDoc with
    rows := [rowNoLink]
    anchors := [⟨"Next", some uC4, [], false, false, false⟩]
    pagPresent := true
    pagHasNextBtn := true
    pagLinkTexts := ["2"] }

/-- A listing page with no non-header rows yields no stubs, so
`hasResults = false` implies the parser returns nothing. -/
theorem hasResults_false_no_stubs {doc : Doc} (h : hasResults doc = false) :
    parseListingPage doc = [] := by
  unfold hasResults at h
  split at h
  · cases h
  · rename_i hlen
    have hall : ∀ r ∈ doc.rows, r.isHeading = true := by
      intro r hr
      by_contra hc
      have : 0 < (doc.rows.filter (fun r => !r.isHeading)).length := by
        apply List.length_pos.mpr
        intro hnil
        have h2 := List.filter_eq_nil_iff.mp hnil r hr
        simp at h2
        exact hc h2
      exact hlen this
    apply List.filterMap_eq_nil_iff.mpr
    intro r hr
    unfold parseListingRow
    rw [if_pos (hall r hr)]

/-- Every task produced by the PROFILE-mapping loop is a PROFILE task. -/
theorem filter_isProfile_map (stubs : List Stub) :
    (stubs.map (fun s => Task.profile s.profileUrl s.nsrNo)).filter Task.isProfile
      = stubs.map (fun s => Task.profile s.profileUrl s.nsrNo) := by
  apply List.filter_eq_self.mpr
  intro t ht
  rcases List.mem_map.mp ht with ⟨s, _, hs⟩
  rw [← hs]
  rfl

/-- No task produced by the PROFILE-mapping loop is a SEARCH task. -/
theorem filter_isSearch_map (stubs : List Stub) :
    (stubs.map (fun s => Task.profile s.profileUrl s.nsrNo)).filter Task.isSearch
      = [] := by
  apply List.filter_eq_nil_iff.mpr
  intro t ht
  rcases List.mem_map.mp ht with ⟨s, _, hs⟩
  rw [← hs]
  simp [Task.isSearch]

/-- Counterexample to C4 as stated: `docC4` has results and the
Pagination Discovery Engine (`findNextPageUrl`) returns a page-2
candidate for it, yet `handleListPage` — the LISTING handler of the
part_003 crawler — emits its DETAIL task and no further LISTING task:
that handler never consults the engine (pagination is disabled for
state-filtered traversal, and full-crawl pages are pre-generated). -/
theorem handleListPage_ignores_engine :
    hasResults docC4 = true ∧
      findNextPageUrl docC4 curC4 1 = some uC4 ∧
      (handleListPage docC4 false).filter Task.isSearch = [] ∧
      (handleListPage docC4 true).filter Task.isSearch = [] ∧
      handleListPage docC4 false ≠ [] :=
  ⟨rfl, rfl, rfl, rfl, by decide⟩

/-- C4 as amended: a completed LISTING page emits exactly one DETAIL task
per valid stub in both crawler variants; the main.js variant
(`handleSearchPage`) additionally emits a LISTING task for `page + 1`
exactly when its pagination decision (`parsePaginationInfo.hasNext`
together with the next-anchor query) yields a candidate URL, and emits no
LISTING task when the decision yields none (terminal traversal); the
part_003 variant (`handleListPage`) never emits a further LISTING task at
all. -/
theorem frontier_listing_transitions :
    (∀ (doc : Doc) (sid pg : Int),
        (handleSearchPage doc sid pg).filter Task.isProfile
          = (parseListingPage doc).map (fun s => Task.profile s.profileUrl s.nsrNo))
    ∧ (∀ (doc : Doc) (sid pg : Int),
        nextDecisionMain doc = none →
        (handleSearchPage doc sid pg).filter Task.isSearch = [])
    ∧ (∀ (doc : Doc) (sid pg : Int) (u : Url),
        nextDecisionMain doc = some u →
        hasResults doc = true →
        (handleSearchPage doc sid pg).filter Task.isSearch
          = [Task.search (urlStr u)
              ("SEARCH-" ++ intToStr sid ++ "-" ++ intToStr (pg + 1)) (pg + 1)])
    ∧ (∀ (doc : Doc) (b : Bool),
        (handleListPage doc b).filter Task.isProfile
          = (parseListingPage doc).map (fun s => Task.profile s.profileUrl s.nsrNo)
        ∧ (handleListPage doc b).filter Task.isSearch = []) := by
  refine ⟨?_, ?_, ?_, ?_⟩
  · intro doc sid pg
    unfold handleSearchPage
    cases hr : hasResults doc with
    | false => simp [hasResults_false_no_stubs hr]
    | true =>
      cases hd : nextDecisionMain doc with
      | none => simp [hd, filter_isProfile_map]
      | some u => simp [hd, filter_isProfile_map, Task.isProfile]
  · intro doc sid pg hd
    unfold handleSearchPage
    cases hr : hasResults doc with
    | false => simp
    | true => simp [hd, filter_isSearch_map]
  · intro doc sid pg u hd hr
    unfold handleSearchPage
    rw [hr]
    simp [hd, filter_isSearch_map, Task.isSearch]
  · intro doc b
    constructor
    · unfold handleListPage
      cases hr : hasResults doc with
      | false => simp [hasResults_false_no_stubs hr]
      | true => simp [filter_isProfile_map]
    · unfold handleListPage
      cases hr : hasResults doc with
      | false => simp
      | true => simp [filter_isSearch_map]

/-- Witness for C4 (amended): on `docC4`, `handleSearchPage` emits the
page-2 LISTING task the pagination decision selects. -/
theorem frontier_listing_transitions_witness :
    (handleSearchPage docC4 1 1).filter Task.isSearch
      = [Task.search "https://nsr.org.my/list1pview.asp?state_ForSearch=1&page=2"
          "SEARCH-1-2" 2] :=
  frontier_listing_transitions.2.2.1 docC4 1 1 uC4 rfl rfl

/-- Counterexample to C5 as stated: the dedup key of a DETAIL task is the
request URL (crawlee's default, since the handlers pass no `uniqueKey`),
and the same id reached once through a listing link and once through the
constructed canonical URL yields two different keys — both requests are
enqueued, so the key is not a function of the id alone and the same id is
fetched twice in one run. -/
theorem detail_dedup_not_by_id :
    (parseListingPage docDup).map (fun s => s.nsrNo) = ["123456", "123456"] ∧
      ((parseListingPage docDup).map profileKey).Nodup ∧
      (enqueueProfiles (parseListingPage docDup) Frontier.empty).tasks.length = 2 ∧
      ((enqueueProfiles (parseListingPage docDup) Frontier.empty).tasks.filter
        (Task.isProfileFor "123456")).length = 2 :=
  ⟨rfl, by decide, rfl, rfl⟩

/-- C5 as amended: DETAIL tasks are deduplicated by their request URL
(the stub's profile URL): re-enqueueing a key already in the frontier is
a no-op, so two DETAIL tasks with the same profile URL are enqueued at
most once; per-id uniqueness in the datastore is restored only by the
external sink's upsert keyed on the id. -/
theorem detail_dedup_by_url :
    (∀ (f : Frontier) (k : String) (t : Task), k ∈ f.keys → addRequest f k t = f)
    ∧ (∀ s1 s2 : Stub, profileKey s1 = profileKey s2 →
        (enqueueProfiles [s1, s2] Frontier.empty).tasks.length = 1) := by
  constructor
  · intro f k t hk
    unfold addRequest
    rw [if_pos hk]
  · intro s1 s2 h
    show (addRequest (addRequest Frontier.empty (profileKey s1)
        (Task.profile s1.profileUrl s1.nsrNo)) (profileKey s2)
        (Task.profile s2.profileUrl s2.nsrNo)).tasks.length = 1
    unfold addRequest Frontier.empty
    simp [← h]

/-- Witness for C5 (amended): the same stub enqueued twice produces one
task. -/
theorem detail_dedup_by_url_witness :
    (enqueueProfiles
      [⟨"123456", "Dr", "Alice Tan", "Female", "Kuala Lumpur", "Cardiology",
        buildProfileUrl "123456"⟩,
       ⟨"123456", "Dr", "Alice Tan", "Female", "Kuala Lumpur", "Cardiology",
        buildProfileUrl "123456"⟩] Frontier.empty).tasks.length = 1 :=
  detail_dedup_by_url.2 _ _ rfl

/-! ## Claim C6 -/

/-- C6: the code evaluated at the failing inputs.  The claim (and the
repository's own README example record) says an address ending
"..., Johor Bahru, Johor 80100" yields city "Johor Bahru"; the region
derivation does yield Johor / regular, but `extractCityFromAddress`
yields no city at all: the second-to-last address part "Johor Bahru" is
rejected because `PATTERNS.state.test` matches the substring "Johor"
anywhere inside it. -/
theorem johor_bahru_city_lost :
    extractStateFromAddress "123 Jalan Tebrau, Johor Bahru, Johor 80100"
        = ⟨1, "Johor", "regular"⟩
    ∧ extractCityFromAddress "123 Jalan Tebrau, Johor Bahru, Johor 80100" = none
    ∧ extractStateFromAddress
        "Hospital Sultanah Aminah, Jalan Persiaran Abu Bakar Sultan, 80100 Johor Bahru, Johor"
        = ⟨1, "Johor", "regular"⟩
    ∧ extractCityFromAddress
        "Hospital Sultanah Aminah, Jalan Persiaran Abu Bakar Sultan, 80100 Johor Bahru, Johor"
        = none
    ∧ stateTest "Johor Bahru" = true :=
  ⟨rfl, rfl, rfl, rfl, rfl⟩

/-! ## Claim C7 -/

/-- A form with a single explicit `type="text"` input. -/
def docText : Doc :=
  { emptyDoc with
    formEls := [⟨"input", some "text", some "q", some "hello", false, []⟩] }

/-- A form exercising every branch of `extractFormFields`: a hidden
input, an input without a `type` attribute and without a value, a
`type="text"` input, a select with a selected option, a select with no
selected option, a checked value-less checkbox, an unchecked checkbox, a
checked radio, and a nameless hidden input. -/
def bigForm : Doc :=
  { emptyDoc with
    formEls :=
      [⟨"input", some "hidden", some "tok", some "abc", false, []⟩,
       ⟨"input", none, some "user", none, false, []⟩,
       ⟨"input", some "text", some "q", some "hello", false, []⟩,
       ⟨"select", none, some "state", none, false,
         [⟨some "1", "Johor", false⟩, ⟨some "2", "Kedah", true⟩]⟩,
       ⟨"select", none, some "empty", none, false,
         [⟨some "5", "X", false⟩, ⟨none, "Y", false⟩]⟩,
       ⟨"input", some "checkbox", some "agree", none, true, []⟩,
       ⟨"input", some "checkbox", some "news", some "y", false, []⟩,
       ⟨"input", some "radio", some "g", some "m", true, []⟩,
       ⟨"input", some "hidden", none, some "orphan", false, []⟩] }

/-- Lookup after `fdSet`: the inserted key reads back the inserted value,
any other key is unaffected. -/
theorem fdGet_fdSet_eq (fd : List (String × String)) (nm v k : String) :
    fdGet (fdSet fd nm v) k = if k = nm then some v else fdGet fd k := by
  induction fd with
  | nil =>
    by_cases hk : k = nm
    · rw [if_pos hk]
      show fdGet [(nm, v)] k = some v
      unfold fdGet
      rw [List.find?_cons_of_pos _ (by simp [hk.symm])]
      rfl
    · rw [if_neg hk]
      show fdGet [(nm, v)] k = fdGet [] k
      unfold fdGet
      rw [List.find?_cons_of_neg _ (by simp; exact fun hc => hk hc.symm)]
  | cons p ps ih =>
    show fdGet (if p.1 = nm then (nm, v) :: ps else p :: fdSet ps nm v) k = _
    by_cases hp : p.1 = nm
    · rw [if_pos hp]
      by_cases hk : k = nm
      · rw [if_pos hk]
        unfold fdGet
        rw [List.find?_cons_of_pos _ (by simp [hk.symm])]
        rfl
      · rw [if_neg hk]
        unfold fdGet
        rw [List.find?_cons_of_neg _ (by simp; exact fun hc => hk hc.symm),
          List.find?_cons_of_neg _ (by simp [hp]; exact fun hc => hk hc.symm)]
    · rw [if_neg hp]
      by_cases hpk : p.1 = k
      · have h1 : ¬(k = nm) := fun hc => hp (by rw [hpk, hc])
        rw [if_neg h1]
        unfold fdGet
        rw [List.find?_cons_of_pos _ (by simp [hpk]),
          List.find?_cons_of_pos _ (by simp [hpk])]
      · by_cases hk : k = nm
        · rw [if_pos hk]
          rw [if_pos hk] at ih
          unfold fdGet at ih ⊢
          rw [List.find?_cons_of_neg _ (by simp [hpk])]
          exact ih
        · rw [if_neg hk]
          rw [if_neg hk] at ih
          unfold fdGet at ih ⊢
          rw [List.find?_cons_of_neg _ (by simp [hpk]),
            List.find?_cons_of_neg _ (by simp [hpk])]
          exact ih

/-- `formFieldStep` either leaves the mapping unchanged or performs one
`fdSet` under the element's name. -/
theorem formFieldStep_cases (fd : List (String × String)) (el : FormEl) :
    formFieldStep fd el = fd ∨
      ∃ nm v, el.nameAttr = some nm ∧ formFieldStep fd el = fdSet fd nm v := by
  rcases hn : el.nameAttr with _ | name
  · left
    simp only [formFieldStep, hn]
  · simp only [formFieldStep, hn]
    by_cases he : name = ""
    · rw [if_pos he]
      left
      rfl
    · rw [if_neg he]
      split
      · exact Or.inr ⟨name, _, rfl, rfl⟩
      · split
        · exact Or.inr ⟨name, _, rfl, rfl⟩
        · split
          · split
            · exact Or.inr ⟨name, _, rfl, rfl⟩
            · exact Or.inl rfl
          · exact Or.inl rfl

/-- Any key present after one `formFieldStep` is the element's name or
was present before. -/
theorem formFieldStep_keys {fd : List (String × String)} {el : FormEl}
    {k : String} (h : fdGet (formFieldStep fd el) k ≠ none) :
    el.nameAttr = some k ∨ fdGet fd k ≠ none := by
  rcases formFieldStep_cases fd el with hc | ⟨nm, v, hn, hc⟩
  · rw [hc] at h
    exact Or.inr h
  · rw [hc, fdGet_fdSet_eq] at h
    by_cases hk : k = nm
    · left
      rw [hn, hk]
    · rw [if_neg hk] at h
      exact Or.inr h

/-- Folding `formFieldStep` only introduces keys named by some element. -/
theorem formFields_foldl_keys :
    ∀ (els : List FormEl) (acc : List (String × String)) (k : String),
      fdGet (els.foldl formFieldStep acc) k ≠ none →
      (∃ el ∈ els, el.nameAttr = some k) ∨ fdGet acc k ≠ none := by
  intro els
  induction els with
  | nil => intro acc k h; exact Or.inr h
  | cons el els ih =>
    intro acc k h
    rcases ih (formFieldStep acc el) k h with he | he
    · rcases he with ⟨e, hmem, hname⟩
      exact Or.inl ⟨e, List.mem_cons_of_mem el hmem, hname⟩
    · rcases formFieldStep_keys he with hn | hn
      · exact Or.inl ⟨el, List.mem_cons_self el els, hn⟩
      · exact Or.inr hn

/-- Counterexample to C7 as stated: a named `<input type="text">` with a
value is not captured at all — `extractFormFields` computes
`type = attr('type') || tagName`, so the `type === 'input'` branch only
matches inputs *without* a `type` attribute, and `"text"` matches no
branch. -/
theorem text_input_not_captured :
    extractFormFields docText = [] ∧
      fdGet (extractFormFields docText) "q" = none :=
  ⟨rfl, rfl⟩

/-- C7 as amended: `extractFormFields` captures named hidden inputs and
named inputs without a `type` attribute (value attribute, defaulting to
the empty string), selects (the selected option's value, or its text if
the value attribute is missing or empty, falling back to the first
option's value), and checked checkboxes/radios (value attribute, or "on"
when absent); named inputs with any other explicit type — including
`type="text"` — and elements without a name are ignored, and the
function is total.  Concretely on `bigForm`, and in general every
captured key names some form element. -/
theorem extractFormFields_contract :
    extractFormFields bigForm
      = [("tok", "abc"), ("user", ""), ("state", "2"), ("empty", "5"),
         ("agree", "on"), ("g", "m")]
    ∧ (∀ (doc : Doc) (k : String),
        fdGet (extractFormFields doc) k ≠ none →
        ∃ el ∈ doc.formEls, el.nameAttr = some k) := by
  constructor
  · rfl
  · intro doc k h
    rcases formFields_foldl_keys doc.formEls [] k h with he | he
    · exact he
    · exact absurd rfl he

/-- Witness for C7 (amended): the key "tok" captured from `bigForm` is
the name of one of its form elements. -/
theorem extractFormFields_contract_witness :
    ∃ el ∈ bigForm.formEls, el.nameAttr = some "tok" :=
  extractFormFields_contract.2 bigForm "tok" (by decide)

/-! ## Claim C8 -/

/-- A valid listing row with the given id and name (name cell linked,
no href). -/
def mkRow (id nm : String) : Row :=
  ⟨false,
    [⟨id, none, none⟩, ⟨"Dr", none, none⟩, ⟨nm, some nm, none⟩,
     ⟨"Male", none, none⟩, ⟨"Johor", none, none⟩, ⟨"Surgery", none, none⟩]⟩

/-- The header row of the listing table. -/
def headRow : Row := ⟨true, []⟩

/-- A row with fewer than the minimum 6 cells. -/
def shortRow : Row := ⟨false, [⟨"100002", none, none⟩, ⟨"Dr", none, none⟩]⟩

/-- A full-width row whose first-cell id has fewer than 6 digits. -/
def badIdRow : Row :=
  ⟨false,
    [⟨"12345", none, none⟩, ⟨"Dr", none, none⟩, ⟨"Zed", none, none⟩,
     ⟨"Male", none, none⟩, ⟨"Johor", none, none⟩, ⟨"Surgery", none, none⟩]⟩

/-- The stub `mkRow id nm` parses to. -/
def mkStub (id nm : String) : Stub :=
  ⟨id, "Dr", nm, "Male", "Johor", "Surgery", buildProfileUrl id⟩

/-- A listing document: one header row, three valid rows, one too-short
row and one invalid-id row interleaved. -/
def docC8 : Doc :=
  { emptyDoc with
    rows := [headRow, mkRow "100001" "Alice", shortRow, mkRow "100002" "Bob",
             badIdRow, mkRow "100003" "Carol"] }

/-- C8: the listing parser returns one stub per valid data row, in row
order — concretely, `docC8` (a header row, three valid rows, a too-short
row and an invalid-id row) yields exactly its three valid stubs in order;
in general a header row, a row with fewer than 6 cells, or a row whose
first-cell id fails validation is skipped without affecting the other
rows, and every returned stub carries a valid id. -/
theorem parseListingPage_contract :
    parseListingPage docC8
        = [mkStub "100001" "Alice", mkStub "100002" "Bob", mkStub "100003" "Carol"]
    ∧ (∀ (doc : Doc) (s : Stub), s ∈ parseListingPage doc →
        isValidNsrNumber (some s.nsrNo) = true)
    ∧ (∀ (d : Doc) (r : Row) (rest : List Row),
        d.rows = r :: rest →
        (r.isHeading = true ∨ r.cells.length < 6 ∨
          isValidNsrNumber (some (cleanText (r.cells.getD 0 defCell).text)) = false) →
        parseListingPage d = parseListingPage { d with rows := rest }) := by
  refine ⟨rfl, ?_, ?_⟩
  · intro doc s hs
    rcases List.mem_filterMap.mp hs with ⟨r, _, hr⟩
    unfold parseListingRow at hr
    split at hr
    · cases hr
    · dsimp only at hr
      split at hr
      · cases hr
      · split at hr
        · cases hr
        · rename_i hvalid
          cases hr
          simpa using hvalid
  · intro d r rest hrows hskip
    have hnone : parseListingRow r = none := by
      unfold parseListingRow
      by_cases hh : r.isHeading
      · rw [if_pos hh]
      · rw [if_neg hh]
        dsimp only
        rcases hskip with h | h | h
        · exact absurd h (by simpa using hh)
        · rw [if_pos h]
        · by_cases hlen : r.cells.length < 6
          · rw [if_pos hlen]
          · rw [if_neg hlen, h]
            simp
    unfold parseListingPage
    rw [hrows]
    simp [List.filterMap_cons, hnone]

/-- Witness for C8: skipping `docC8`'s header row leaves the parse
unchanged. -/
theorem parseListingPage_contract_witness :
    parseListingPage docC8 = parseListingPage
      { docC8 with
        rows := [mkRow "100001" "Alice", shortRow, mkRow "100002" "Bob",
                 badIdRow, mkRow "100003" "Carol"] } :=
  parseListingPage_contract.2.2 docC8 headRow
    [mkRow "100001" "Alice", shortRow, mkRow "100002" "Bob",
     badIdRow, mkRow "100003" "Carol"] rfl (Or.inl rfl)

/-! ## Claim C9 -/

/-- C9: the id validity check returns true exactly when the digit-only
subsequence of the input has length at least 6; it returns false for a
null or empty input, and behaves as claimed on the three examples. -/
theorem isValidNsrNumber_contract :
    (∀ s : String,
        isValidNsrNumber (some s) = true ↔
          6 ≤ (s.toList.filter Char.isDigit).length)
    ∧ isValidNsrNumber none = false
    ∧ isValidNsrNumber (some "") = false
    ∧ isValidNsrNumber (some "12345") = false
    ∧ isValidNsrNumber (some "123456") = true
    ∧ isValidNsrNumber (some "NSR 004821") = true := by
  refine ⟨?_, rfl, rfl, rfl, rfl, rfl⟩
  intro s
  show (if s = "" then false
      else decide (6 ≤ (s.toList.filter Char.isDigit).length)) = true ↔ _
  by_cases he : s = ""
  · subst he
    simp
  · rw [if_neg he]
    exact decide_eq_true_iff

/-- Witness for C9: instantiating the equivalence at "123456". -/
theorem isValidNsrNumber_contract_witness :
    6 ≤ ("123456".toList.filter Char.isDigit).length :=
  (isValidNsrNumber_contract.1 "123456").mp rfl

/-! ## Claim C10 -/

/-- No branch of the profile row loop writes `profileUrl`. -/
theorem processProfileRow_profileUrl (inputNsr : String) (f : SecFlags)
    (sp : Specialist) (cells : List String) :
    (processProfileRow inputNsr f sp cells).profileUrl = sp.profileUrl := by
  unfold processProfileRow applyAddress
  simp only [apply_ite Specialist.profileUrl, ite_self]

/-- Folding the row loop preserves `profileUrl`. -/
theorem rowsFold_profileUrl (inputNsr : String) (f : SecFlags) :
    ∀ (rows : List (List String)) (sp : Specialist),
      (rows.foldl (processProfileRow inputNsr f) sp).profileUrl = sp.profileUrl := by
  intro rows
  induction rows with
  | nil => intro sp; rfl
  | cons r rs ih =>
    intro sp
    rw [List.foldl_cons, ih, processProfileRow_profileUrl]

/-- Folding the table loop preserves `profileUrl`. -/
theorem tablesFold_profileUrl (inputNsr : String) :
    ∀ (ts : List PTable) (acc : SecFlags × Specialist),
      ((ts.foldl (processTable inputNsr) acc).2).profileUrl = acc.2.profileUrl := by
  intro ts
  induction ts with
  | nil => intro acc; rfl
  | cons t ts ih =>
    intro acc
    rw [List.foldl_cons, ih]
    exact rowsFold_profileUrl inputNsr _ t.rows acc.2

/-- One definition-list pass preserves `profileUrl`. -/
theorem processDl_profileUrl (sp : Specialist) (dl : Dl) :
    (processDl sp dl).profileUrl = sp.profileUrl := by
  unfold processDl
  generalize dl.labels.zip dl.values = prs
  induction prs generalizing sp with
  | nil => rfl
  | cons pr prs ih =>
    rw [List.foldl_cons]
    rw [ih]
    unfold applyAddress
    simp only [apply_ite Specialist.profileUrl, ite_self]

/-- Folding the definition-list pass preserves `profileUrl`. -/
theorem dlsFold_profileUrl :
    ∀ (dls : List Dl) (sp : Specialist),
      (dls.foldl processDl sp).profileUrl = sp.profileUrl := by
  intro dls
  induction dls with
  | nil => intro sp; rfl
  | cons dl dls ih =>
    intro sp
    rw [List.foldl_cons, ih, processDl_profileUrl]

/-- A profile document containing a Personal Data table whose "NSR No"
row overrides the record id. -/
def docOverride : Doc :=
  { emptyDoc with
    tables := [⟨"Personal Data", [["NSR No", "999999"], ["Name", "Alice Tan"]]⟩] }

/-- C10: `parseProfilePage` always returns a record whose `profileUrl`
equals the canonical profile URL of the *input* id — no document content
ever rewrites that field.  In particular a document whose "nsr no" label
overrides the record's id still leaves `profileUrl` built from the input
id, so the two fields can disagree on one record. -/
theorem parseProfilePage_profileUrl_frame :
    (∀ (doc : Doc) (nsrNo : String),
        (parseProfilePage doc nsrNo).profileUrl = buildProfileUrl nsrNo)
    ∧ (parseProfilePage docOverride "123456").nsrNo = "999999"
    ∧ (parseProfilePage docOverride "123456").profileUrl = buildProfileUrl "123456"
    ∧ (parseProfilePage docOverride "123456").nsrNo ≠ "123456" := by
  refine ⟨?_, rfl, rfl, by decide⟩
  intro doc nsrNo
  unfold parseProfilePage
  cases h1 : doc.nameElText <;> cases h2 : doc.specialtyElText <;>
    simp only [h1, h2, apply_ite Specialist.profileUrl, ite_self,
      dlsFold_profileUrl, tablesFold_profileUrl, initSpecialist]

end NSR
